import Mathlib

/-!
Verification development for the CLI coding agent in `src/index.js`.

The program is a single-file Node.js REPL: a tool registry (list_files,
read_file, edit_file, create_file, exec), a system prompt, a conversation
list, a Gemini client, and a dispatch loop that parses each model reply as
a JSON tool invocation and executes it.

This file shallowly embeds that program: JavaScript values appearing in
parsed replies become `JVal`; the filesystem becomes an explicit `FS`
record; each tool handler becomes a pure function from a world and an
argument value to a result, the successor world, and the I/O events it
attempted; `JSON.parse`, the code-fence stripping, `String.replace` with a
global regex, and the dispatch logic of `handleInput`/`promptLoop` are
translated from the source.  Modelled subsets are documented at each
definition.
-/

namespace CLIAgent

/-- JavaScript values that `JSON.parse` can produce (plus the shapes the
dispatch code inspects).  Number literals are modelled over integers: the
agent protocol exchanges strings and objects, and no claim exercises
fractional numbers. -/
inductive JVal where
  | jnull : JVal
  | jbool : Bool → JVal
  | jnum  : Int → JVal
  | jstr  : String → JVal
  | jarr  : List JVal → JVal
  | jobj  : List (String × JVal) → JVal
deriving Repr

/-- JavaScript truthiness of a parsed JSON value (`undefined` is handled by
`truthyO` below; objects and arrays are always truthy, `""`, `0`, `false`
and `null` are falsy). -/
def jsTruthy : JVal → Bool
  | .jnull => false
  | .jbool b => b
  | .jnum n => n != 0
  | .jstr s => !s.isEmpty
  | .jarr _ => true
  | .jobj _ => true

/-- Truthiness of a possibly-`undefined` value (`none` models `undefined`). -/
def truthyO : Option JVal → Bool
  | none => false
  | some v => jsTruthy v

/-- `typeof v === "string"` on a possibly-`undefined` value. -/
def isStringO : Option JVal → Bool
  | some (.jstr _) => true
  | _ => false

mutual

/-- JavaScript string coercion `String(v)` for the values that can appear
here: used for the property key in `tools[tool]` and for the template
literal in edit_file's validation message. -/
def jsShow : JVal → String
  | .jnull => "null"
  | .jbool true => "true"
  | .jbool false => "false"
  | .jnum n => toString n
  | .jstr s => s
  | .jobj _ => "[object Object]"
  | .jarr xs => jsShowList xs

/-- `Array.prototype.toString`: elements joined with commas; inside the
join, `null` renders as the empty string. -/
def jsShowList : List JVal → String
  | [] => ""
  | x :: rest =>
    (match x with
      | .jnull => ""
      | v => jsShow v)
    ++ (if rest.isEmpty then "" else ",") ++ jsShowList rest

end

/-- `String(v)` where `v` may be `undefined`. -/
def jsShowO : Option JVal → String
  | none => "undefined"
  | some v => jsShow v

/-- Property lookup used for `payload.tool`, `payload.args` and argument
destructuring: on an object, the last binding for the key wins (as
`JSON.parse` retains the last duplicate key); on the other non-`null`
values the properties accessed by this program are `undefined`.  `null`
never reaches this function: the dispatcher checks for it first, because
`null.tool` throws. -/
def jsGetF (v : JVal) (k : String) : Option JVal :=
  match v with
  | .jobj fields => ((fields.reverse).find? (fun e => e.1 == k)).map (fun e => e.2)
  | _ => none

/-! ## JSON parsing (`JSON.parse`)

A recursive-descent parser over the character list, fuelled by twice the
input length (every two recursion steps consume at least one character, so
the fuel never runs out on real input).  The modelled subset is the JSON
grammar with integer number literals; `\u` escapes take four hex digits.
-/

/-- JSON whitespace. -/
def isJsonWs (c : Char) : Bool := c == ' ' || c == '\n' || c == '\t' || c == '\r'

/-- Skip leading JSON whitespace. -/
def skipWs (s : List Char) : List Char := s.dropWhile isJsonWs

/-- Hex digit value, by code point: digits, then the lowercase and the
uppercase letter ranges. -/
def hexVal (c : Char) : Option Nat :=
  let n := c.toNat
  if 48 ≤ n && n ≤ 57 then some (n - 48)
  else if 97 ≤ n && n ≤ 102 then some (n - 87)
  else if 65 ≤ n && n ≤ 70 then some (n - 55)
  else none

/-- Parse the body of a JSON string (after the opening quote), handling
escapes; raw control characters are rejected as `JSON.parse` does. -/
def parseStrBody : List Char → String → Option (String × List Char)
  | [], _ => none
  | '"' :: rest, acc => some (acc, rest)
  | '\\' :: 'u' :: a :: b :: c :: d :: rest, acc =>
    match hexVal a, hexVal b, hexVal c, hexVal d with
    | some ha, some hb, some hc, some hd =>
      parseStrBody rest (acc.push (Char.ofNat (((ha * 16 + hb) * 16 + hc) * 16 + hd)))
    | _, _, _, _ => none
  | '\\' :: e :: rest, acc =>
    if e == '"' then parseStrBody rest (acc.push '"')
    else if e == '\\' then parseStrBody rest (acc.push '\\')
    else if e == '/' then parseStrBody rest (acc.push '/')
    else if e == 'b' then parseStrBody rest (acc.push (Char.ofNat 8))
    else if e == 'f' then parseStrBody rest (acc.push (Char.ofNat 12))
    else if e == 'n' then parseStrBody rest (acc.push '\n')
    else if e == 'r' then parseStrBody rest (acc.push '\r')
    else if e == 't' then parseStrBody rest (acc.push '\t')
    else none
  | c :: rest, acc =>
    if c.toNat < 32 then none else parseStrBody rest (acc.push c)

/-- Digits to a natural number. -/
def digitsToNat (ds : List Char) : Nat :=
  ds.foldl (fun n c => n * 10 + (c.toNat - '0'.toNat)) 0

/-- Parse a JSON integer literal (optional minus, no leading zeros); a
following `.` or exponent marker is outside the modelled subset. -/
def parseIntLit (s : List Char) : Option (Int × List Char) :=
  let (neg, s1) := match s with
    | '-' :: t => (true, t)
    | t => (false, t)
  let ds := s1.takeWhile Char.isDigit
  let rest := s1.dropWhile Char.isDigit
  if ds.isEmpty then none
  else if ds.length > 1 && ds.headD '0' == '0' then none
  else match rest with
    | '.' :: _ => none
    | 'e' :: _ => none
    | 'E' :: _ => none
    | _ =>
      let n : Int := Int.ofNat (digitsToNat ds)
      some (if neg then -n else n, rest)

/-- Opening brace character. -/
def lbraceC : Char := Char.ofNat 123
/-- Closing brace character. -/
def rbraceC : Char := Char.ofNat 125

mutual

/-- Parse one JSON value, returning it and the remaining input. -/
def parseVal : Nat → List Char → Option (JVal × List Char)
  | 0, _ => none
  | Nat.succ f, s =>
    match skipWs s with
    | [] => none
    | c :: rest =>
      if c == '"' then (parseStrBody rest "").map (fun p => (JVal.jstr p.1, p.2))
      else if c == 't' then
        match rest with
        | 'r' :: 'u' :: 'e' :: r => some (JVal.jbool true, r)
        | _ => none
      else if c == 'f' then
        match rest with
        | 'a' :: 'l' :: 's' :: 'e' :: r => some (JVal.jbool false, r)
        | _ => none
      else if c == 'n' then
        match rest with
        | 'u' :: 'l' :: 'l' :: r => some (JVal.jnull, r)
        | _ => none
      else if c == '[' then
        match skipWs rest with
        | ']' :: r => some (JVal.jarr [], r)
        | r => (parseElems f r).map (fun p => (JVal.jarr p.1, p.2))
      else if c == lbraceC then
        match skipWs rest with
        | r =>
          if r.headD ' ' == rbraceC then some (JVal.jobj [], r.tail)
          else (parseFields f r).map (fun p => (JVal.jobj p.1, p.2))
      else if c == '-' || c.isDigit then
        (parseIntLit (c :: rest)).map (fun p => (JVal.jnum p.1, p.2))
      else none

/-- Parse the elements of a non-empty JSON array (after `[`). -/
def parseElems : Nat → List Char → Option (List JVal × List Char)
  | 0, _ => none
  | Nat.succ f, s =>
    match parseVal f s with
    | none => none
    | some (v, rest) =>
      match skipWs rest with
      | ',' :: r => (parseElems f r).map (fun p => (v :: p.1, p.2))
      | ']' :: r => some ([v], r)
      | _ => none

/-- Parse the fields of a non-empty JSON object (after the opening brace). -/
def parseFields : Nat → List Char → Option (List (String × JVal) × List Char)
  | 0, _ => none
  | Nat.succ f, s =>
    match skipWs s with
    | '"' :: r =>
      match parseStrBody r "" with
      | none => none
      | some (k, r1) =>
        match skipWs r1 with
        | ':' :: r2 =>
          match parseVal f r2 with
          | none => none
          | some (v, r3) =>
            match skipWs r3 with
            | ',' :: r4 => (parseFields f r4).map (fun p => ((k, v) :: p.1, p.2))
            | r5 =>
              if r5.headD ' ' == rbraceC then some ([(k, v)], r5.tail)
              else none
        | _ => none
    | _ => none

end

/-- `JSON.parse`: one value, possibly surrounded by whitespace; anything
else throws (modelled as `none`). -/
def parseJson (s : String) : Option JVal :=
  let cs := s.toList
  match parseVal (2 * cs.length + 2) cs with
  | some (v, rest) => if skipWs rest == [] then some v else none
  | none => none

/-! ## Code-fence stripping

`handleInput` computes `reply.replace(/```json/, "").replace(/```/, "")`:
each `replace` without the `g` flag removes the FIRST occurrence of the
(purely literal) pattern, wherever it occurs in the string.
-/

/-- Remove the first occurrence of `pat` from `s` (no-op when absent),
the behaviour of `String.prototype.replace` with a literal pattern and an
empty replacement. -/
def removeFirstOcc (pat : List Char) : List Char → List Char
  | [] => []
  | c :: rest =>
    if pat.isPrefixOf (c :: rest) then (c :: rest).drop pat.length
    else c :: removeFirstOcc pat rest

/-- Rebuild a string from characters. -/
def listToStr (l : List Char) : String := String.mk l

/-- The fence-stripping step of `handleInput` (line 139 of `index.js`):
first occurrence of ` ```json `, then first occurrence of ` ``` `. -/
def stripFences (s : String) : String :=
  listToStr (removeFirstOcc "```".toList (removeFirstOcc "```json".toList s.toList))

/-! ## The regex engine behind `edit_file`

`edit_file` runs `content.replace(new RegExp(oldStr, "g"), newStr)`: the
`oldStr` argument is compiled as a regular expression (not taken
literally) and every match is replaced, with JavaScript's `$`-sequences
honoured in `newStr`.  The engine below models the subset of JavaScript
regex syntax built from single-character atoms — literal characters,
escapes, `.`, and the classes `\d \D \w \W \s \S` — each optionally
followed by a greedy `*`, `+` or `?` quantifier.  `compileRx` returns
`none` both for patterns that are invalid in JavaScript (such as a bare
`*`) and for constructs outside this subset (groups, alternation,
character classes, anchors); theorems about `edit_file` carry the
hypothesis that the pattern compiles. -/

/-- One single-character regex atom. -/
inductive Atom where
  | ach : Char → Atom
  | adot : Atom
  | aDigit : Atom
  | aNonDigit : Atom
  | aWord : Atom
  | aNonWord : Atom
  | aSpace : Atom
  | aNonSpace : Atom
deriving Repr, DecidableEq

/-- Quantifier attached to an atom. -/
inductive Quant where
  | one : Quant
  | star : Quant
  | plus : Quant
  | opt : Quant
deriving Repr, DecidableEq

/-- An atom with its quantifier. -/
structure Piece where
  atom : Atom
  quant : Quant
deriving Repr, DecidableEq

/-- JavaScript `\w`. -/
def isWordChar (c : Char) : Bool := c.isAlphanum || c == '_'

/-- JavaScript `\s` (the ASCII part plus no-break space). -/
def isJsSpace (c : Char) : Bool :=
  c == ' ' || c == '\t' || c == '\n' || c == '\r'
    || c == Char.ofNat 11 || c == Char.ofNat 12 || c == Char.ofNat 160

/-- Does atom `a` match character `c`?  `.` matches everything except the
line terminators. -/
def matchAtom (a : Atom) (c : Char) : Bool :=
  match a with
  | .ach d => c == d
  | .adot => !(c == '\n' || c == '\r' || c == Char.ofNat 8232 || c == Char.ofNat 8233)
  | .aDigit => c.isDigit
  | .aNonDigit => !c.isDigit
  | .aWord => isWordChar c
  | .aNonWord => !isWordChar c
  | .aSpace => isJsSpace c
  | .aNonSpace => !isJsSpace c

/-- Characters that are regex metacharacters or open constructs outside
the modelled subset. -/
def unmodeledRxChar (c : Char) : Bool :=
  c == '(' || c == ')' || c == '[' || c == ']' || c == '|' || c == '^'
    || c == '$' || c == lbraceC || c == rbraceC

/-- Translate an escape `\c`.  Class escapes and the common control
escapes are modelled; `\b`, back-references and `\u`/`\x`/`\c` escapes are
outside the subset. -/
def escAtom (c : Char) : Option Atom :=
  if c == 'd' then some .aDigit
  else if c == 'D' then some .aNonDigit
  else if c == 'w' then some .aWord
  else if c == 'W' then some .aNonWord
  else if c == 's' then some .aSpace
  else if c == 'S' then some .aNonSpace
  else if c == 'n' then some (.ach '\n')
  else if c == 't' then some (.ach '\t')
  else if c == 'r' then some (.ach '\r')
  else if c == 'f' then some (.ach (Char.ofNat 12))
  else if c == 'v' then some (.ach (Char.ofNat 11))
  else if c == '0' then some (.ach (Char.ofNat 0))
  else if c == 'b' || c == 'B' || c == 'u' || c == 'x' || c == 'c' || c.isDigit then none
  else some (.ach c)

/-- Compile a pattern string (the argument of `new RegExp`) into pieces:
an atom (literal, escape or `.`) followed by an optional greedy quantifier,
repeated.  A bare quantifier and the constructs outside the modelled
subset reject the pattern. -/
def compileRx : List Char → Option (List Piece)
  | [] => some []
  | c :: rest =>
    if c == '*' || c == '+' || c == '?' then none
    else if unmodeledRxChar c then none
    else if c == '\\' then
      match rest with
      | [] => none
      | e :: rest1 =>
        match escAtom e with
        | none => none
        | some a =>
          match rest1 with
          | '*' :: '?' :: _ => none
          | '+' :: '?' :: _ => none
          | '?' :: '?' :: _ => none
          | '*' :: r => (compileRx r).map (fun ps => Piece.mk a Quant.star :: ps)
          | '+' :: r => (compileRx r).map (fun ps => Piece.mk a Quant.plus :: ps)
          | '?' :: r => (compileRx r).map (fun ps => Piece.mk a Quant.opt :: ps)
          | r => (compileRx r).map (fun ps => Piece.mk a Quant.one :: ps)
    else
      let a : Atom := if c == '.' then Atom.adot else Atom.ach c
      match rest with
      | '*' :: '?' :: _ => none
      | '+' :: '?' :: _ => none
      | '?' :: '?' :: _ => none
      | '*' :: r => (compileRx r).map (fun ps => Piece.mk a Quant.star :: ps)
      | '+' :: r => (compileRx r).map (fun ps => Piece.mk a Quant.plus :: ps)
      | '?' :: r => (compileRx r).map (fun ps => Piece.mk a Quant.opt :: ps)
      | r => (compileRx r).map (fun ps => Piece.mk a Quant.one :: ps)

/-- Backtracking matcher, fuelled (each step lowers the sum of the
remaining input length and the remaining piece count, so the fuel in
`tryMatch` below never runs out): `some n` when the pieces match a prefix
of `s` of length `n`, choosing lengths in JavaScript's greedy backtracking
order (a quantified atom prefers to consume). -/
def tryMatchF : Nat → List Piece → List Char → Option Nat
  | 0, _, _ => none
  | Nat.succ f, ps0, s =>
    match ps0 with
    | [] => some 0
    | Piece.mk a Quant.one :: ps =>
      match s with
      | [] => none
      | c :: rest => if matchAtom a c then (tryMatchF f ps rest).map (· + 1) else none
    | Piece.mk a Quant.opt :: ps =>
      match s with
      | [] => tryMatchF f ps []
      | c :: rest =>
        if matchAtom a c then
          match tryMatchF f ps rest with
          | some n => some (n + 1)
          | none => tryMatchF f ps (c :: rest)
        else tryMatchF f ps (c :: rest)
    | Piece.mk a Quant.star :: ps =>
      match s with
      | [] => tryMatchF f ps []
      | c :: rest =>
        if matchAtom a c then
          match tryMatchF f (Piece.mk a Quant.star :: ps) rest with
          | some n => some (n + 1)
          | none => tryMatchF f ps (c :: rest)
        else tryMatchF f ps (c :: rest)
    | Piece.mk a Quant.plus :: ps =>
      match s with
      | [] => none
      | c :: rest =>
        if matchAtom a c then (tryMatchF f (Piece.mk a Quant.star :: ps) rest).map (· + 1)
        else none

/-- The matcher with enough fuel for any input. -/
def tryMatch (ps : List Piece) (s : List Char) : Option Nat :=
  tryMatchF (s.length + ps.length + 1) ps s

/-- Is there a match of the pattern at any position of `s` (including the
end-of-string position)? -/
def containsMatch (r : List Piece) : List Char → Bool
  | [] => (tryMatch r []).isSome
  | c :: rest => (tryMatch r (c :: rest)).isSome || containsMatch r rest

/-- Backtick character. -/
def btickC : Char := Char.ofNat 96
/-- Apostrophe character. -/
def squoteC : Char := Char.ofNat 39

/-- Expand JavaScript `$`-sequences in a replacement string: `$$`, `$&`
(the match), `$`-backtick (the text before the match) and `$`-apostrophe
(the text after).  With no capture groups in the pattern, `$1` etc. stay
literal, as in JavaScript. -/
def expandRepl (before matched after : List Char) : List Char → List Char
  | [] => []
  | c :: rest =>
    if c == '$' then
      match rest with
      | [] => [c]
      | d :: rest2 =>
        if d == '$' then '$' :: expandRepl before matched after rest2
        else if d == '&' then matched ++ expandRepl before matched after rest2
        else if d == btickC then before ++ expandRepl before matched after rest2
        else if d == squoteC then after ++ expandRepl before matched after rest2
        else c :: expandRepl before matched after (d :: rest2)
    else c :: expandRepl before matched after rest

/-- Global replacement, fuelled by the input length (each step consumes
at least one character): repeatedly take the leftmost match, substitute
the expanded replacement, and continue after it (advancing one character
after an empty match, and allowing a final empty match at the end of
input), the semantics of `String.prototype.replace` with a `g`-flagged
regex.  `beforeRev` accumulates the consumed input, reversed, for the
`$`-backtick sequence. -/
def gReplaceAuxF : Nat → List Piece → List Char → List Char → List Char → List Char
  | 0, _, _, _, _ => []
  | Nat.succ f, r, repl, beforeRev, s =>
    match s with
    | [] =>
      match tryMatch r [] with
      | some _ => expandRepl beforeRev.reverse [] [] repl
      | none => []
    | c :: rest =>
      match tryMatch r (c :: rest) with
      | none => c :: gReplaceAuxF f r repl (c :: beforeRev) rest
      | some 0 =>
        expandRepl beforeRev.reverse [] (c :: rest) repl
          ++ c :: gReplaceAuxF f r repl (c :: beforeRev) rest
      | some (n + 1) =>
        expandRepl beforeRev.reverse ((c :: rest).take (n + 1)) ((c :: rest).drop (n + 1)) repl
          ++ gReplaceAuxF f r repl (((c :: rest).take (n + 1)).reverse ++ beforeRev)
              ((c :: rest).drop (n + 1))

/-- The global replacement with enough fuel for its input. -/
def gReplaceAux (r : List Piece) (repl beforeRev s : List Char) : List Char :=
  gReplaceAuxF (s.length + 1) r repl beforeRev s

/-- `content.replace(new RegExp(oldStr, "g"), newStr)` for a compiled
pattern `r`. -/
def jsReplaceAll (r : List Piece) (newStr content : String) : String :=
  listToStr (gReplaceAux r newStr.toList [] content.toList)

/-- The whole replacement pipeline from the pattern string, `none` when
the pattern does not compile. -/
def jsReplaceAllStr (oldStr newStr content : String) : Option String :=
  (compileRx oldStr.toList).map (fun r => jsReplaceAll r newStr content)

/-! ## Filesystem, shell and tool handlers

The tool handlers in `index.js` perform synchronous `fs` calls.  The
filesystem is a record of file contents, existing directories, and the
current directory's listing (read by `list_files`); the shell used by
`exec` is an oracle from command to outcome.  Each handler returns its
result (or thrown error), the successor world, and the trace of I/O
operations it attempted — the trace is what the claims about
"no I/O before validation" are stated against. -/

/-- An attempted I/O operation. -/
inductive IOEvent where
  | readEv : String → IOEvent
  | readFdEv : IOEvent
  | writeEv : String → IOEvent
  | mkdirEv : String → IOEvent
  | readdirEv : IOEvent
  | execEv : String → IOEvent
deriving Repr, DecidableEq

/-- A JavaScript value that a handler can throw or a promise can reject
with: an `Error` object (whose string coercion is `"Error: " ++ message`)
or a plain string (as `exec` rejects with `stderr`). -/
inductive JsErr where
  | errObj : String → JsErr
  | errStr : String → JsErr
deriving Repr, DecidableEq

/-- `String(err)`, as interpolated by `` `Error: ${err}` `` in the
dispatch loop's catch. -/
def jsErrStr : JsErr → String
  | .errObj m => "Error: " ++ m
  | .errStr s => s

/-- The filesystem: file contents, the set of existing directories, and
the current working directory's entry list. -/
structure FS where
  files : List (String × String)
  dirs : List String
  cwdListing : List String
deriving Repr

/-- The world a handler acts on: the filesystem and the shell oracle used
by `exec` (command to stdout on success, to stderr text on failure). -/
structure World where
  fs : FS
  shell : String → Except String String

/-- Read a file's content (`fs.readFileSync` on an existing path). -/
def fsRead (fs : FS) (p : String) : Option String :=
  (fs.files.find? (fun e => e.1 == p)).map (fun e => e.2)

/-- Write a file (`fs.writeFileSync`), overwriting an existing entry. -/
def fsWrite (fs : FS) (p c : String) : FS :=
  FS.mk
    (if fs.files.any (fun e => e.1 == p)
      then fs.files.map (fun e => if e.1 == p then (p, c) else e)
      else fs.files ++ [(p, c)])
    fs.dirs fs.cwdListing

/-- `fsWrite` lifted to the world. -/
def setFileW (w : World) (p c : String) : World := World.mk (fsWrite w.fs p c) w.shell

/-- POSIX `path.dirname`: strip trailing separators, then the final
segment; `"."` when there is no separator, `"/"` at the root. -/
def dirnameStr (p : String) : String :=
  let r := p.toList.reverse
  let r1 := r.dropWhile (fun c => c == '/')
  let r2 := r1.dropWhile (fun c => c != '/')
  let r3 := r2.dropWhile (fun c => c == '/')
  if r3.isEmpty then (if p.toList.headD ' ' == '/' then "/" else ".")
  else listToStr r3.reverse

/-- The chain of directories `fs.mkdirSync(d, { recursive: true })`
creates: every proper prefix of `d` at a separator, and `d` itself. -/
def ancestorsOf (d : String) : List String :=
  let segs := d.splitOn "/"
  ((List.range (segs.length - 1)).map
    (fun i => String.intercalate "/" (segs.take (i + 1)))) ++ [d]

/-- Recursive directory creation, lifted to the world. -/
def mkdirRecW (w : World) (d : String) : World :=
  World.mk (FS.mk w.fs.files (w.fs.dirs ++ ancestorsOf d) w.fs.cwdListing) w.shell

/-- Argument destructuring `({ path, oldStr, ... }) => ...` on the `args`
value: a missing field, or a field of a non-object, is `undefined`
(`none`).  `args` is truthy whenever a handler runs, so it is never
`null`. -/
def argField (args : JVal) (k : String) : Option JVal := jsGetF args k

/-- What a tool call evaluates to: the returned string or the thrown
(or rejected) value, together with the successor world and the I/O trace. -/
def ToolOut := Except JsErr String × World × List IOEvent

/-- Node's error message for a missing file. -/
def enoentMsg (p : String) : String :=
  "ENOENT: no such file or directory, open '" ++ p ++ "'"

/-- Node's error message for a read through an unopened file descriptor
(`fs.readFileSync` treats a numeric path as a file descriptor). -/
def ebadfMsg : String := "EBADF: bad file descriptor, read"

/-- Node's `TypeError` when a path is neither a string, a buffer, a URL
nor a file descriptor.  Thrown by argument validation inside `fs`, before
any I/O. -/
def pathTypeMsg : String :=
  "The \"path\" argument must be of type string or an instance of Buffer or URL"

/-- Node's `TypeError` when `fs.writeFileSync` receives non-string data
(for instance `undefined` when `content` is absent). -/
def writeDataTypeMsg : String :=
  "The \"data\" argument must be of type string or an instance of Buffer, TypedArray, or DataView"

/-- Node's `TypeError` when `path.dirname` receives a non-string. -/
def dirnameTypeMsg : String := "The \"path\" argument must be of type string"

/-- The `SyntaxError` thrown by `new RegExp` on an invalid pattern (also
used for patterns outside the modelled regex subset). -/
def invalidRxMsg (o : String) : String := "Invalid regular expression: /" ++ o ++ "/g"

/-- edit_file's success confirmation (line 41 of `index.js`). -/
def editedMsg (p : String) : String :=
  "✏️ Successfully edited '" ++ p ++ "'"

/-- create_file's success confirmation (line 50 of `index.js`). -/
def createdMsg (p : String) : String := "📁 Created " ++ p

/-- The validation error thrown by edit_file (lines 32-36 of `index.js`):
`Missing or invalid arguments. Got: path=..., oldStr=..., newStr=...`
with template-literal interpolation of the three values. -/
def argErrMsg (pv ov nv : Option JVal) : String :=
  "Missing or invalid arguments. Got: path=" ++ jsShowO pv ++ ", oldStr=" ++ jsShowO ov
    ++ ", newStr=" ++ jsShowO nv

/-- The `list_files` handler: `fs.readdirSync(".").join("\n")`. -/
def listFilesF (w : World) (_args : JVal) : ToolOut :=
  (Except.ok (String.intercalate "\n" w.fs.cwdListing), w, [IOEvent.readdirEv])

/-- `fs.readFileSync(path, "utf-8")` on a destructured `path` value: a
string path is read (ENOENT when absent), a numeric path is treated as a
file descriptor and the read attempt fails, and any other value is
rejected by `fs` argument validation before I/O. -/
def readPathV (w : World) (pv : Option JVal) : Except JsErr String × List IOEvent :=
  match pv with
  | some (JVal.jstr p) =>
    match fsRead w.fs p with
    | some content => (Except.ok content, [IOEvent.readEv p])
    | none => (Except.error (JsErr.errObj (enoentMsg p)), [IOEvent.readEv p])
  | some (JVal.jnum _) => (Except.error (JsErr.errObj ebadfMsg), [IOEvent.readFdEv])
  | _ => (Except.error (JsErr.errObj pathTypeMsg), [])

/-- The `read_file` handler. -/
def readFileF (w : World) (args : JVal) : ToolOut :=
  let (res, evs) := readPathV w (argField args "path")
  (res, w, evs)

/-- The `edit_file` handler (lines 31-42 of `index.js`): validate with
`!path || typeof oldStr !== "string" || typeof newStr !== "string"` —
note the truthiness (not type) check on `path` — then read, replace
globally with `oldStr` compiled as a regex, and write back. -/
def editFileF (w : World) (args : JVal) : ToolOut :=
  let pv := argField args "path"
  let ov := argField args "oldStr"
  let nv := argField args "newStr"
  if !truthyO pv || !isStringO ov || !isStringO nv then
    (Except.error (JsErr.errObj (argErrMsg pv ov nv)), w, [])
  else
    match pv with
    | some (JVal.jstr p) =>
      match fsRead w.fs p with
      | none => (Except.error (JsErr.errObj (enoentMsg p)), w, [IOEvent.readEv p])
      | some content =>
        let o := match ov with | some (JVal.jstr s) => s | _ => ""
        let nw := match nv with | some (JVal.jstr s) => s | _ => ""
        match compileRx o.toList with
        | none => (Except.error (JsErr.errObj (invalidRxMsg o)), w, [IOEvent.readEv p])
        | some r =>
          (Except.ok (editedMsg p), setFileW w p (jsReplaceAll r nw content),
            [IOEvent.readEv p, IOEvent.writeEv p])
    | some (JVal.jnum _) => (Except.error (JsErr.errObj ebadfMsg), w, [IOEvent.readFdEv])
    | _ => (Except.error (JsErr.errObj pathTypeMsg), w, [])

/-- The `create_file` handler (lines 45-52 of `index.js`):
`mkdirSync(dirname(path), { recursive: true })` runs FIRST, then
`writeFileSync(path, content)` — so when `content` is absent (or not a
string) the write throws a `TypeError`, but the directories created by the
first step remain. -/
def createFileF (w : World) (args : JVal) : ToolOut :=
  match argField args "path" with
  | some (JVal.jstr p) =>
    let d := dirnameStr p
    let w1 := mkdirRecW w d
    match argField args "content" with
    | some (JVal.jstr c) =>
      (Except.ok (createdMsg p), setFileW w1 p c, [IOEvent.mkdirEv d, IOEvent.writeEv p])
    | _ => (Except.error (JsErr.errObj writeDataTypeMsg), w1, [IOEvent.mkdirEv d])
  | _ => (Except.error (JsErr.errObj dirnameTypeMsg), w, [])

/-- The `exec` handler: run the command in the shell; the promise resolves
with stdout or rejects with `stderr || err.message` (modelled as the
oracle's error string). -/
def execF (w : World) (args : JVal) : ToolOut :=
  match argField args "command" with
  | some (JVal.jstr c) =>
    match w.shell c with
    | Except.ok out => (Except.ok out, w, [IOEvent.execEv c])
    | Except.error stderr => (Except.error (JsErr.errStr stderr), w, [IOEvent.execEv c])
  | _ => (Except.error (JsErr.errObj "The \"command\" argument is invalid"), w, [])

/-- The names registered in the `tools` object, in declaration order. -/
def toolNames : List String := ["list_files", "read_file", "edit_file", "create_file", "exec"]

/-- `tools[tool]` membership after JavaScript property-key coercion. -/
def isRegisteredTool (n : String) : Bool := toolNames.contains n

/-- `tools[tool].func(args)`: dispatch to the named handler. -/
def runTool (w : World) (n : String) (args : JVal) : ToolOut :=
  if n == "list_files" then listFilesF w args
  else if n == "read_file" then readFileF w args
  else if n == "edit_file" then editFileF w args
  else if n == "create_file" then createFileF w args
  else if n == "exec" then execF w args
  else (Except.error (JsErr.errObj "not a registered tool"), w, [])

/-! ## Conversation, dispatch loop and prompt loop -/

/-- One conversation entry, as pushed onto the `conversation` array:
`role` is `"assistant"` (the startup prompt), `"user"`, `"model"` or
`"tool"`; `name` is present only on tool turns. -/
structure Turn where
  role : String
  name : Option String
  content : String
deriving Repr, DecidableEq

/-- A user turn (line 133 of `index.js`). -/
def userTurn (s : String) : Turn := Turn.mk "user" none s
/-- A plain model turn (line 164). -/
def modelTurn (s : String) : Turn := Turn.mk "model" none s
/-- A tool-result turn (lines 148 and 151-155). -/
def toolTurn (n s : String) : Turn := Turn.mk "tool" (some n) s

/-- The console messages the loop emits through `console.error` /
`console.log` that the specification talks about. -/
inductive LogEvent where
  | apiErrorLog : String → LogEvent
  | parseErrorLog : LogEvent
  | unknownToolLog : String → LogEvent
  | toolErrorLog : String → LogEvent
  | geminiEchoLog : LogEvent
deriving Repr, DecidableEq

/-- The whole observable state of one agent process: the conversation, the
world, the console log, plus two instrumentation traces — `calls` records
each `tools[tool].func(args)` invocation and `events` the attempted I/O —
so that "no tool executes" and "no I/O happens" are statable. -/
structure St where
  conv : List Turn
  world : World
  logs : List LogEvent
  calls : List (String × JVal)
  events : List IOEvent

/-- `conversation.push(t)`. -/
def pushTurn (st : St) (t : Turn) : St :=
  St.mk (st.conv ++ [t]) st.world st.logs st.calls st.events

/-- Record a console message. -/
def addLog (st : St) (l : LogEvent) : St :=
  St.mk st.conv st.world (st.logs ++ [l]) st.calls st.events

/-- `String.prototype.startsWith`. -/
def jsStartsWith (s pre : String) : Bool := pre.toList.isPrefixOf s.toList

/-- JavaScript's notion of whitespace for `String.prototype.trim` (the
ASCII part plus no-break space, which covers every input of interest). -/
def jsWsChar (c : Char) : Bool :=
  c == ' ' || c == '\t' || c == '\n' || c == '\r'
    || c == Char.ofNat 11 || c == Char.ofNat 12 || c == Char.ofNat 160

/-- `String.prototype.trim`: strip leading and trailing whitespace. -/
def jsTrim (s : String) : String :=
  listToStr (((s.toList.dropWhile jsWsChar).reverse.dropWhile jsWsChar).reverse)

/-- `String.prototype.toLowerCase`, modelled on the ASCII letters (the
only ones compared against `"exit"`). -/
def jsToLower (s : String) : String :=
  listToStr (s.toList.map (fun c =>
    if 'A' ≤ c && c ≤ 'Z' then Char.ofNat (c.toNat + 32) else c))

/-- Is the parsed payload `null` (so that `payload.tool` throws)? -/
def isNullV : JVal → Bool
  | .jnull => true
  | _ => false

/-- The literal checked at line 160 of `index.js`. -/
def geminiErrHead : String := "Gemini API Error:"

/-- Lines 160-165: a reply that did not carry a usable tool call is logged
only when it starts with `"Gemini API Error:"`, and otherwise pushed as a
`model` turn — with the ORIGINAL reply text, not the fence-stripped text. -/
def plainReplyStep (st : St) (reply : String) : St :=
  if jsStartsWith reply geminiErrHead then addLog st LogEvent.geminiEchoLog
  else pushTurn st (modelTurn reply)

/-- Lines 138-168 of `index.js`: strip fences, `JSON.parse`, and dispatch.
A parse failure — including the `TypeError` from `payload.tool` when the
reply is the JSON literal `null` — lands in the outer catch, which only
logs `Error parsing reply` and pushes nothing. -/
def dispatchReply (st : St) (reply : String) : St :=
  match parseJson (stripFences reply) with
  | none => addLog st LogEvent.parseErrorLog
  | some payload =>
    if isNullV payload then addLog st LogEvent.parseErrorLog
    else
      let tOpt := jsGetF payload "tool"
      let aOpt := jsGetF payload "args"
      if truthyO tOpt && truthyO aOpt then
        let tname := jsShowO tOpt
        if isRegisteredTool tname then
          let args := aOpt.getD JVal.jnull
          let (res, w1, evs) := runTool st.world tname args
          let st1 := St.mk st.conv w1 st.logs (st.calls ++ [(tname, args)]) (st.events ++ evs)
          match res with
          | Except.ok r => pushTurn st1 (toolTurn tname r)
          | Except.error e =>
            pushTurn (addLog st1 (LogEvent.toolErrorLog tname))
              (toolTurn tname ("Error: " ++ jsErrStr e))
        else addLog st (LogEvent.unknownToolLog tname)
      else plainReplyStep st reply

/-- `chatWithGemini` (lines 106-129): on a successful response the
extracted text is trimmed and returned; on failure the error is logged
(`❌ Gemini API Error: ...`) and then RE-THROWN (line 127). -/
def chatWithGemini (resp : Except String String) : Except String String × List LogEvent :=
  match resp with
  | Except.ok t => (Except.ok (jsTrim t), [])
  | Except.error e => (Except.error e, [LogEvent.apiErrorLog e])

/-- `handleInput` (lines 132-169): push the user turn, call the model,
then dispatch.  The call to `chatWithGemini` at line 135 stands OUTSIDE
the try/catch that begins at line 138, so a model-API error propagates out
of `handleInput`; the returned flag is `false` when that happens. -/
def handleInput (st : St) (input : String) (api : Except String String) : St × Bool :=
  let st1 := pushTurn st (userTurn input)
  match chatWithGemini api with
  | (Except.error _, lg) =>
    (St.mk st1.conv st1.world (st1.logs ++ lg) st1.calls st1.events, false)
  | (Except.ok reply, lg) =>
    (dispatchReply (St.mk st1.conv st1.world (st1.logs ++ lg) st1.calls st1.events) reply, true)

/-- Line 185: the exit token, case-insensitive and whitespace-trimmed. -/
def isExitCmd (input : String) : Bool := jsToLower (jsTrim input) == "exit"

/-- How one pass of `promptLoop` (lines 183-192) ends. -/
inductive StepOut where
  | closed : St → StepOut
  | continues : St → StepOut
  | crashed : St → StepOut

/-- One pass of `promptLoop`: `exit` closes the interface; otherwise
`handleInput` runs and, when it resolves, `promptLoop()` re-arms the
prompt (`continues`).  When `handleInput` rejects — which happens exactly
when the model call failed — the `await` at line 189 re-throws inside the
`rl.question` callback, `promptLoop()` at line 190 is never reached, and
no prompt is ever re-armed (`crashed`). -/
def promptStep (st : St) (input : String) (api : Except String String) : StepOut :=
  if isExitCmd input then StepOut.closed st
  else
    match handleInput st input api with
    | (st1, true) => StepOut.continues st1
    | (st1, false) => StepOut.crashed st1

/-- The per-tool description strings of the `tools` registry. -/
def toolDescriptions : List (String × String) :=
  [("list_files", "List all files and folders in the current directory."),
   ("read_file", "Read and return the content of a file using its path."),
   ("edit_file", "Find and replace all instances of a specific string in a file. You must provide: the file path, the exact string to replace (oldStr), and the new string to use (newStr)."),
   ("create_file", "Create a new file with the specified content."),
   ("exec", "Execute a terminal or shell command.")]

/-- The system prompt (lines 68-101), with the tool list interpolated and
the template trimmed. -/
def systemPromptStr : String :=
  "You are a CLI coding agent. Your job is to assist the user by analyzing their input and using the right tools.\n\nAvailable tools:\n"
  ++ String.intercalate "\n" (toolDescriptions.map (fun t => "- " ++ t.1 ++ ": " ++ t.2))
  ++ "\n\nWhen the user says something related to:\n- listing files, reading or writing content,\n- editing text in a file,\n- or executing a shell/terminal command,\n\nRespond ONLY with this JSON structure:\n\x7b\n  \"tool\": \"<tool_name>\",\n  \"args\": \x7b ...arguments \x7d\n\x7d\n\nWhen the user asks to edit a file (e.g. “Replace 'hello' with 'hi' in app.js”), use the \"edit_file\" tool.\n\nReturn a JSON like:\n\x7b\n  \"tool\": \"edit_file\",\n  \"args\": \x7b\n    \"path\": \"app.js\",\n    \"oldStr\": \"hello\",\n    \"newStr\": \"hi\"\n  \x7d\n\x7d\n\n\nNo need for extra explanation or code. If the user message isn’t actionable, just reply normally as a chatbot."

/-- The conversation at startup (line 103): the system prompt is stored
under the role `"assistant"`. -/
def initialConv : List Turn := [Turn.mk "assistant" none systemPromptStr]

/-- A fresh process state over a given world. -/
def initSt (w : World) : St := St.mk initialConv w [] [] []

/-! ## Helper lemmas -/

theorem listToStr_toList (s : String) : listToStr s.toList = s := by
  cases s
  rfl

theorem isPrefixOf_append_self (l r : List Char) : l.isPrefixOf (l ++ r) = true := by
  induction l with
  | nil => simp [List.isPrefixOf]
  | cons c cs ih => simp [List.isPrefixOf, ih]

theorem drop_len_append (l r : List Char) : (l ++ r).drop l.length = r := by
  induction l with
  | nil => rfl
  | cons c cs ih => simpa using ih

theorem removeFirstOcc_append_self (pat rest : List Char) (h : pat ≠ []) :
    removeFirstOcc pat (pat ++ rest) = rest := by
  match pat, h with
  | c :: cs, _ =>
    show removeFirstOcc (c :: cs) (c :: (cs ++ rest)) = rest
    rw [removeFirstOcc]
    have hp : (c :: cs).isPrefixOf (c :: (cs ++ rest)) = true :=
      isPrefixOf_append_self (c :: cs) rest
    rw [if_pos hp]
    exact drop_len_append (c :: cs) rest

theorem removeFirstOcc_append_of_head_notMem (c : Char) (cs l : List Char) (h : c ∉ l) :
    removeFirstOcc (c :: cs) (l ++ c :: cs) = l := by
  induction l with
  | nil =>
    simpa using removeFirstOcc_append_self (c :: cs) [] (by simp)
  | cons a as ih =>
    have hac : (c == a) = false := by
      have : a ≠ c := fun hEq => h (by simp [hEq])
      simp [this.symm]
    have hnp : (c :: cs).isPrefixOf (a :: (as ++ c :: cs)) = false := by
      simp [List.isPrefixOf, hac]
    show removeFirstOcc (c :: cs) (a :: (as ++ c :: cs)) = a :: as
    rw [removeFirstOcc, if_neg (by simp [hnp])]
    exact congrArg (a :: ·) (ih (fun hm => h (by simp [hm])))

theorem find_write_mem (l : List (String × String)) (p c : String)
    (h : l.any (fun e => e.1 == p) = true) :
    (l.map (fun e => if e.1 == p then (p, c) else e)).find? (fun e => e.1 == p)
      = some (p, c) := by
  induction l with
  | nil => simp at h
  | cons x xs ih =>
    rw [List.map_cons]
    by_cases hx : (x.1 == p) = true
    · rw [if_pos hx]
      exact List.find?_cons_of_pos _ (by simp)
    · have hx' : (x.1 == p) = false := Bool.eq_false_iff.mpr hx
      rw [if_neg hx]
      rw [List.find?_cons_of_neg _ (by simp [hx'])]
      apply ih
      simp only [List.any_cons, hx', Bool.false_or] at h
      exact h

theorem find_append_notMem (l : List (String × String)) (p c : String)
    (h : l.any (fun e => e.1 == p) = false) :
    (l ++ [(p, c)]).find? (fun e => e.1 == p) = some (p, c) := by
  induction l with
  | nil => exact List.find?_cons_of_pos _ (by simp)
  | cons x xs ih =>
    have hx : (x.1 == p) = false := by
      simp only [List.any_cons, Bool.or_eq_false_iff] at h
      exact h.1
    have h2 : xs.any (fun e => e.1 == p) = false := by
      simp only [List.any_cons, Bool.or_eq_false_iff] at h
      exact h.2
    rw [List.cons_append, List.find?_cons_of_neg _ (by simp [hx])]
    exact ih h2

theorem fsRead_fsWrite (fs : FS) (p c : String) : fsRead (fsWrite fs p c) p = some c := by
  unfold fsRead fsWrite
  by_cases hAny : fs.files.any (fun e => e.1 == p) = true
  · rw [if_pos hAny, find_write_mem fs.files p c hAny]
    rfl
  · have h' : fs.files.any (fun e => e.1 == p) = false := Bool.eq_false_iff.mpr hAny
    rw [if_neg hAny, find_append_notMem fs.files p c h']
    rfl

theorem gReplaceAux_no_match (r : List Piece) (repl : List Char) :
    ∀ (s b : List Char), containsMatch r s = false → gReplaceAux r repl b s = s := by
  intro s
  induction s with
  | nil =>
    intro b h
    rw [containsMatch] at h
    cases hm : tryMatch r [] with
    | none =>
      show gReplaceAuxF 1 r repl b [] = []
      simp only [gReplaceAuxF, hm]
    | some n => rw [hm] at h; simp at h
  | cons c cs ih =>
    intro b h
    rw [containsMatch, Bool.or_eq_false_iff] at h
    cases hm : tryMatch r (c :: cs) with
    | none =>
      show gReplaceAuxF ((c :: cs).length + 1) r repl b (c :: cs) = c :: cs
      have hl : (c :: cs).length + 1 = Nat.succ (cs.length + 1) := by
        simp [List.length_cons]
      rw [hl]
      simp only [gReplaceAuxF, hm]
      exact congrArg (c :: ·) (ih (c :: b) h.2)
    | some n => rw [hm] at h; simp at h

theorem jsReplaceAll_no_match (r : List Piece) (nw content : String)
    (h : containsMatch r content.toList = false) : jsReplaceAll r nw content = content := by
  unfold jsReplaceAll
  rw [gReplaceAux_no_match r nw.toList content.toList [] h]
  exact listToStr_toList content

theorem jsStartsWith_append (s t : String) : jsStartsWith (s ++ t) s = true := by
  unfold jsStartsWith
  have hd : (s ++ t).toList = s.toList ++ t.toList := by
    show (s ++ t).data = s.data ++ t.data
    exact String.data_append s t
  rw [hd]
  exact isPrefixOf_append_self s.toList t.toList

/-! ## Concrete fixtures used by witnesses and counterexamples -/

/-- A shell oracle on which every command succeeds with empty output. -/
def exShell : String → Except String String := fun _ => Except.ok ""

/-- An empty world. -/
def exWorld : World := World.mk (FS.mk [] [] []) exShell

/-- A world holding one file `f.txt` with content `a-a-a`. -/
def exWorldA : World := World.mk (FS.mk [("f.txt", "a-a-a")] [] ["f.txt"]) exShell

/-- An `args` object for edit_file with three string fields. -/
def editArgs (p o nw : String) : JVal :=
  JVal.jobj [("path", JVal.jstr p), ("oldStr", JVal.jstr o), ("newStr", JVal.jstr nw)]

/-- An `args` object for create_file with both fields. -/
def createArgs (p c : String) : JVal :=
  JVal.jobj [("path", JVal.jstr p), ("content", JVal.jstr c)]

/-- An `args` object holding only a string `path`. -/
def pathArgs (p : String) : JVal := JVal.jobj [("path", JVal.jstr p)]

/-- The computation of a successful edit_file call on string arguments: a
non-empty string path passes the truthiness check, the file is read, the
pattern compiled, and the global replacement written back.  Shared by the
edit_file claims. -/
theorem editFileF_ok (w : World) (p o nw content : String) (r : List Piece)
    (hp : p.isEmpty = false)
    (hread : fsRead w.fs p = some content)
    (hrx : compileRx o.toList = some r) :
    editFileF w (editArgs p o nw) =
      (Except.ok (editedMsg p), setFileW w p (jsReplaceAll r nw content),
        [IOEvent.readEv p, IOEvent.writeEv p]) := by
  have h1 : argField (editArgs p o nw) "path" = some (JVal.jstr p) := rfl
  have h2 : argField (editArgs p o nw) "oldStr" = some (JVal.jstr o) := rfl
  have h3 : argField (editArgs p o nw) "newStr" = some (JVal.jstr nw) := rfl
  unfold editFileF
  rw [h1, h2, h3]
  simp only [truthyO, jsTruthy, isStringO, hp, Bool.not_false, Bool.not_true, Bool.or_false,
    Bool.or_self, if_false, hread, hrx]
  rfl

/-! ## The claims -/

/-- C3: for every file content, oldStr and newStr, edit_file replaces all
occurrences of oldStr in the file, with oldStr interpreted as a regex
pattern rather than literal text (here: any pattern of the modelled regex
subset that compiles), and writes the result back to the same path; in
particular content `a-a-a` with oldStr `a` and newStr `b` yields `b-b-b`
(and a metacharacter like `.` matches any character, as the last conjunct
shows).  Stated for a non-empty string path, the only kind the handler's
truthiness check admits. -/
theorem edit_file_replaces_all_regex (w : World) (p o nw content : String) (r : List Piece)
    (hp : p.isEmpty = false)
    (hread : fsRead w.fs p = some content)
    (hrx : compileRx o.toList = some r) :
    editFileF w (editArgs p o nw) =
      (Except.ok (editedMsg p), setFileW w p (jsReplaceAll r nw content),
        [IOEvent.readEv p, IOEvent.writeEv p])
    ∧ fsRead (setFileW w p (jsReplaceAll r nw content)).fs p = some (jsReplaceAll r nw content)
    ∧ jsReplaceAllStr "a" "b" "a-a-a" = some "b-b-b"
    ∧ jsReplaceAllStr "a.a" "X" "ayaza" = some "Xza" :=
  ⟨editFileF_ok w p o nw content r hp hread hrx,
   fsRead_fsWrite w.fs p (jsReplaceAll r nw content), rfl, rfl⟩

/-- Witness for C3: the spec's own example, run on a world holding
`f.txt` with content `a-a-a`. -/
theorem edit_file_replaces_all_regex_witness :
    editFileF exWorldA (editArgs "f.txt" "a" "b") =
      (Except.ok (editedMsg "f.txt"),
        setFileW exWorldA "f.txt" (jsReplaceAll [Piece.mk (Atom.ach 'a') Quant.one] "b" "a-a-a"),
        [IOEvent.readEv "f.txt", IOEvent.writeEv "f.txt"])
    ∧ fsRead (setFileW exWorldA "f.txt"
          (jsReplaceAll [Piece.mk (Atom.ach 'a') Quant.one] "b" "a-a-a")).fs "f.txt"
        = some (jsReplaceAll [Piece.mk (Atom.ach 'a') Quant.one] "b" "a-a-a")
    ∧ jsReplaceAllStr "a" "b" "a-a-a" = some "b-b-b"
    ∧ jsReplaceAllStr "a.a" "X" "ayaza" = some "Xza" :=
  edit_file_replaces_all_regex exWorldA "f.txt" "a" "b" "a-a-a"
    [Piece.mk (Atom.ach 'a') Quant.one] rfl rfl rfl

/-- C8: for every file whose content has no match of the (compiled) oldStr
pattern, edit_file leaves the file content unchanged and still returns the
success confirmation naming the path. -/
theorem edit_file_idempotent_when_absent (w : World) (p o nw content : String) (r : List Piece)
    (hp : p.isEmpty = false)
    (hread : fsRead w.fs p = some content)
    (hrx : compileRx o.toList = some r)
    (hno : containsMatch r content.toList = false) :
    editFileF w (editArgs p o nw) =
      (Except.ok (editedMsg p), setFileW w p content, [IOEvent.readEv p, IOEvent.writeEv p])
    ∧ fsRead (setFileW w p content).fs p = some content := by
  have h := editFileF_ok w p o nw content r hp hread hrx
  rw [jsReplaceAll_no_match r nw content hno] at h
  exact ⟨h, fsRead_fsWrite w.fs p content⟩

/-- Witness for C8: `zz` does not occur in `a-a-a`; the file keeps its
content and the call still reports success. -/
theorem edit_file_idempotent_when_absent_witness :
    editFileF exWorldA (editArgs "f.txt" "zz" "Q") =
      (Except.ok (editedMsg "f.txt"), setFileW exWorldA "f.txt" "a-a-a",
        [IOEvent.readEv "f.txt", IOEvent.writeEv "f.txt"])
    ∧ fsRead (setFileW exWorldA "f.txt" "a-a-a").fs "f.txt" = some "a-a-a" :=
  edit_file_idempotent_when_absent exWorldA "f.txt" "zz" "Q" "a-a-a"
    [Piece.mk (Atom.ach 'z') Quant.one, Piece.mk (Atom.ach 'z') Quant.one]
    rfl rfl rfl (by decide)

/-- C4 (amended): for every argument object in which `path` is missing or
falsy, or `oldStr` or `newStr` is missing or not a string, edit_file fails
with its validation error before any file I/O — empty I/O trace, world
unchanged.  (The claim as frozen also covered a present non-string truthy
`path`; the counterexample shows the truthiness check admits one.) -/
theorem edit_file_validation_guard (w : World) (args : JVal)
    (h : (!truthyO (argField args "path") || !isStringO (argField args "oldStr")
          || !isStringO (argField args "newStr")) = true) :
    editFileF w args =
      (Except.error (JsErr.errObj (argErrMsg (argField args "path")
          (argField args "oldStr") (argField args "newStr"))), w, []) := by
  unfold editFileF
  rw [if_pos h]

/-- Witness for C4 (amended): `oldStr` and `newStr` absent — the
validation error fires and no I/O event is recorded. -/
theorem edit_file_validation_guard_witness :
    editFileF exWorld (JVal.jobj [("path", JVal.jstr "f.txt"), ("newStr", JVal.jstr "b")]) =
      (Except.error (JsErr.errObj (argErrMsg
          (argField (JVal.jobj [("path", JVal.jstr "f.txt"), ("newStr", JVal.jstr "b")]) "path")
          (argField (JVal.jobj [("path", JVal.jstr "f.txt"), ("newStr", JVal.jstr "b")]) "oldStr")
          (argField (JVal.jobj [("path", JVal.jstr "f.txt"), ("newStr", JVal.jstr "b")]) "newStr"))),
        exWorld, []) :=
  edit_file_validation_guard exWorld
    (JVal.jobj [("path", JVal.jstr "f.txt"), ("newStr", JVal.jstr "b")]) (by decide)

/-- Counterexample to C4 as frozen: with `path` the number `5` — present
but not a string — and string `oldStr`/`newStr`, edit_file does not fail
with the ArgumentError and does not stop before I/O: the truthy numeric
path passes the `!path` check, and `fs.readFileSync(5)` treats 5 as a file
descriptor and attempts a read, failing with EBADF. -/
theorem edit_file_validation_counterexample :
    editFileF exWorld (JVal.jobj
        [("path", JVal.jnum 5), ("oldStr", JVal.jstr "a"), ("newStr", JVal.jstr "b")]) =
      (Except.error (JsErr.errObj ebadfMsg), exWorld, [IOEvent.readFdEv])
    ∧ isStringO (argField (JVal.jobj
        [("path", JVal.jnum 5), ("oldStr", JVal.jstr "a"), ("newStr", JVal.jstr "b")]) "path")
        = false
    ∧ ebadfMsg ≠ argErrMsg (some (JVal.jnum 5)) (some (JVal.jstr "a")) (some (JVal.jstr "b"))
    ∧ ([IOEvent.readFdEv] : List IOEvent) ≠ [] :=
  ⟨rfl, rfl, by decide, by decide⟩

/-- The directory named in a recursive mkdir is among the directories it
creates. -/
theorem contains_mkdirRec (w : World) (d : String) :
    (mkdirRecW w d).fs.dirs.contains d = true := by
  have hmem : d ∈ (mkdirRecW w d).fs.dirs := by
    show d ∈ w.fs.dirs ++ ancestorsOf d
    apply List.mem_append_right
    unfold ancestorsOf
    exact List.mem_append_right _ (by simp)
  simpa using hmem

/-- C9: create_file on a path whose parent directory does not yet exist
creates the missing parent chain and the file, returns the success
confirmation naming the path, and a subsequent read_file on the same path
returns exactly the written content. -/
theorem create_file_roundtrip (w : World) (p c : String)
    (hd : w.fs.dirs.contains (dirnameStr p) = false) :
    createFileF w (createArgs p c) =
      (Except.ok (createdMsg p), setFileW (mkdirRecW w (dirnameStr p)) p c,
        [IOEvent.mkdirEv (dirnameStr p), IOEvent.writeEv p])
    ∧ (setFileW (mkdirRecW w (dirnameStr p)) p c).fs.dirs
        = w.fs.dirs ++ ancestorsOf (dirnameStr p)
    ∧ (setFileW (mkdirRecW w (dirnameStr p)) p c).fs.dirs.contains (dirnameStr p) = true
    ∧ readFileF (setFileW (mkdirRecW w (dirnameStr p)) p c) (pathArgs p)
        = (Except.ok c, setFileW (mkdirRecW w (dirnameStr p)) p c, [IOEvent.readEv p]) := by
  refine ⟨rfl, rfl, contains_mkdirRec w (dirnameStr p), ?_⟩
  simp only [readFileF, pathArgs, argField, jsGetF]
  simp [readPathV, setFileW, fsRead_fsWrite]

/-- Witness for C9: writing `xyz` to `newdir/sub/f.txt` in the empty
world; the parents appear and the read-back returns `xyz`. -/
theorem create_file_roundtrip_witness :
    createFileF exWorld (createArgs "newdir/sub/f.txt" "xyz") =
      (Except.ok (createdMsg "newdir/sub/f.txt"),
        setFileW (mkdirRecW exWorld (dirnameStr "newdir/sub/f.txt")) "newdir/sub/f.txt" "xyz",
        [IOEvent.mkdirEv (dirnameStr "newdir/sub/f.txt"), IOEvent.writeEv "newdir/sub/f.txt"])
    ∧ (setFileW (mkdirRecW exWorld (dirnameStr "newdir/sub/f.txt")) "newdir/sub/f.txt" "xyz").fs.dirs
        = exWorld.fs.dirs ++ ancestorsOf (dirnameStr "newdir/sub/f.txt")
    ∧ (setFileW (mkdirRecW exWorld (dirnameStr "newdir/sub/f.txt"))
        "newdir/sub/f.txt" "xyz").fs.dirs.contains (dirnameStr "newdir/sub/f.txt") = true
    ∧ readFileF (setFileW (mkdirRecW exWorld (dirnameStr "newdir/sub/f.txt"))
          "newdir/sub/f.txt" "xyz") (pathArgs "newdir/sub/f.txt")
        = (Except.ok "xyz",
           setFileW (mkdirRecW exWorld (dirnameStr "newdir/sub/f.txt")) "newdir/sub/f.txt" "xyz",
           [IOEvent.readEv "newdir/sub/f.txt"]) :=
  create_file_roundtrip exWorld "newdir/sub/f.txt" "xyz" (by decide)

/-- C10: create_file creates the parent directories BEFORE the content
argument is used, so a call whose write step fails — here because
`content` is absent, making `writeFileSync` throw its TypeError — still
leaves the newly created directories behind: a failed create_file is not
atomic. -/
theorem create_file_not_atomic (w : World) (p : String)
    (hd : w.fs.dirs.contains (dirnameStr p) = false) :
    createFileF w (pathArgs p) =
      (Except.error (JsErr.errObj writeDataTypeMsg), mkdirRecW w (dirnameStr p),
        [IOEvent.mkdirEv (dirnameStr p)])
    ∧ (mkdirRecW w (dirnameStr p)).fs.dirs.contains (dirnameStr p) = true
    ∧ (mkdirRecW w (dirnameStr p)).fs.dirs ≠ w.fs.dirs := by
  refine ⟨rfl, contains_mkdirRec w (dirnameStr p), ?_⟩
  intro heq
  have hc := contains_mkdirRec w (dirnameStr p)
  rw [heq, hd] at hc
  exact Bool.noConfusion hc

/-- Witness for C10: create_file on `made/up/g.txt` with no `content` in
the empty world errors, yet `made/up` now exists. -/
theorem create_file_not_atomic_witness :
    createFileF exWorld (pathArgs "made/up/g.txt") =
      (Except.error (JsErr.errObj writeDataTypeMsg),
        mkdirRecW exWorld (dirnameStr "made/up/g.txt"),
        [IOEvent.mkdirEv (dirnameStr "made/up/g.txt")])
    ∧ (mkdirRecW exWorld (dirnameStr "made/up/g.txt")).fs.dirs.contains
        (dirnameStr "made/up/g.txt") = true
    ∧ (mkdirRecW exWorld (dirnameStr "made/up/g.txt")).fs.dirs ≠ exWorld.fs.dirs :=
  create_file_not_atomic exWorld "made/up/g.txt" (by decide)

/-- C7: for every model reply whose fence-stripped text parses to an
object with a truthy `tool` coercing to a registered name and a truthy
`args` on which that tool's handler succeeds, dispatch invokes exactly
that handler with those args exactly once (one new entry in the call
trace) and appends exactly one `tool` turn carrying the result. -/
theorem dispatch_valid_tool (st : St) (reply : String) (p tv av : JVal) (out : String)
    (w1 : World) (evs : List IOEvent)
    (hparse : parseJson (stripFences reply) = some p)
    (hnull : isNullV p = false)
    (ht : jsGetF p "tool" = some tv) (htt : jsTruthy tv = true)
    (ha : jsGetF p "args" = some av) (hat : jsTruthy av = true)
    (hreg : isRegisteredTool (jsShow tv) = true)
    (hrun : runTool st.world (jsShow tv) av = (Except.ok out, w1, evs)) :
    dispatchReply st reply =
      St.mk (st.conv ++ [toolTurn (jsShow tv) out]) w1 st.logs
        (st.calls ++ [(jsShow tv, av)]) (st.events ++ evs) := by
  simp only [dispatchReply, hparse, hnull, ht, ha, truthyO, htt, hat, Bool.and_self,
    jsShowO, hreg, Option.getD, hrun, pushTurn, toolTurn, if_true, if_false,
    Bool.false_eq_true]

/-- Witness for C7: the reply invoking read_file on `f.txt` in a world
where it holds `a-a-a`; exactly one handler call and one tool turn. -/
theorem dispatch_valid_tool_witness :
    dispatchReply (initSt exWorldA) "\x7b\"tool\":\"read_file\",\"args\":\x7b\"path\":\"f.txt\"\x7d\x7d" =
      St.mk (initialConv ++ [toolTurn "read_file" "a-a-a"]) exWorldA []
        [("read_file", JVal.jobj [("path", JVal.jstr "f.txt")])]
        [IOEvent.readEv "f.txt"] :=
  dispatch_valid_tool (initSt exWorldA)
    "\x7b\"tool\":\"read_file\",\"args\":\x7b\"path\":\"f.txt\"\x7d\x7d"
    (JVal.jobj [("tool", JVal.jstr "read_file"),
                ("args", JVal.jobj [("path", JVal.jstr "f.txt")])])
    (JVal.jstr "read_file") (JVal.jobj [("path", JVal.jstr "f.txt")])
    "a-a-a" exWorldA [IOEvent.readEv "f.txt"]
    rfl rfl rfl rfl rfl rfl rfl rfl

/-- C6: for every tool invocation whose handler fails, exactly one `tool`
turn is appended, its content begins with `Error: `, the error does not
propagate past the dispatch loop, and the loop is not terminated — the
prompt-loop step resolves with `continues`. -/
theorem tool_error_recorded (st : St) (input reply : String) (p tv av : JVal) (e : JsErr)
    (w1 : World) (evs : List IOEvent)
    (hexit : isExitCmd input = false)
    (htrim : jsTrim reply = reply)
    (hparse : parseJson (stripFences reply) = some p)
    (hnull : isNullV p = false)
    (ht : jsGetF p "tool" = some tv) (htt : jsTruthy tv = true)
    (ha : jsGetF p "args" = some av) (hat : jsTruthy av = true)
    (hreg : isRegisteredTool (jsShow tv) = true)
    (hrun : runTool st.world (jsShow tv) av = (Except.error e, w1, evs)) :
    promptStep st input (Except.ok reply) =
      StepOut.continues (St.mk
        (st.conv ++ [userTurn input, toolTurn (jsShow tv) ("Error: " ++ jsErrStr e)])
        w1 (st.logs ++ [LogEvent.toolErrorLog (jsShow tv)])
        (st.calls ++ [(jsShow tv, av)]) (st.events ++ evs))
    ∧ jsStartsWith ("Error: " ++ jsErrStr e) "Error: " = true := by
  constructor
  · simp only [promptStep, hexit, Bool.false_eq_true, if_false, handleInput, chatWithGemini,
      htrim, pushTurn, userTurn, dispatchReply, hparse, hnull, ht, ha, truthyO, htt, hat,
      Bool.and_self, jsShowO, hreg, Option.getD, hrun, addLog, toolTurn, if_true,
      List.append_nil, List.append_assoc, List.singleton_append, List.cons_append,
      List.nil_append]
  · exact jsStartsWith_append "Error: " (jsErrStr e)

/-- Witness for C6: read_file on the missing path `nope` in the empty
world — the handler throws ENOENT, one `Error: `-prefixed tool turn is
recorded, and the loop continues. -/
theorem tool_error_recorded_witness :
    promptStep (initSt exWorld) "read nope"
        (Except.ok "\x7b\"tool\":\"read_file\",\"args\":\x7b\"path\":\"nope\"\x7d\x7d") =
      StepOut.continues (St.mk
        (initialConv ++ [userTurn "read nope",
          toolTurn "read_file" ("Error: " ++ jsErrStr (JsErr.errObj (enoentMsg "nope")))])
        exWorld [LogEvent.toolErrorLog "read_file"]
        [("read_file", JVal.jobj [("path", JVal.jstr "nope")])]
        [IOEvent.readEv "nope"])
    ∧ jsStartsWith ("Error: " ++ jsErrStr (JsErr.errObj (enoentMsg "nope"))) "Error: " = true :=
  tool_error_recorded (initSt exWorld) "read nope"
    "\x7b\"tool\":\"read_file\",\"args\":\x7b\"path\":\"nope\"\x7d\x7d"
    (JVal.jobj [("tool", JVal.jstr "read_file"),
                ("args", JVal.jobj [("path", JVal.jstr "nope")])])
    (JVal.jstr "read_file") (JVal.jobj [("path", JVal.jstr "nope")])
    (JsErr.errObj (enoentMsg "nope")) exWorld [IOEvent.readEv "nope"]
    rfl rfl rfl rfl rfl rfl rfl rfl rfl rfl

/-- C1 (amended): how the loop handles a reply that carries no usable
tool call.  When the fence-stripped reply fails `JSON.parse` — or is the
JSON literal `null`, so that `payload.tool` throws — NO turn is appended:
the parse error is only logged.  When it parses but `tool` or `args` is
falsy, exactly one `model` turn is appended carrying the verbatim ORIGINAL
reply (not the fence-stripped text), unless the reply starts with
`Gemini API Error:`, in which case it is only logged.  In every case no
tool handler executes (`addLog` and `pushTurn` leave the call trace
unchanged). -/
theorem reply_without_tool_call (st : St) (reply : String) :
    (parseJson (stripFences reply) = none →
      dispatchReply st reply = addLog st LogEvent.parseErrorLog)
    ∧ (parseJson (stripFences reply) = some JVal.jnull →
      dispatchReply st reply = addLog st LogEvent.parseErrorLog)
    ∧ (∀ p : JVal, parseJson (stripFences reply) = some p → isNullV p = false →
        (truthyO (jsGetF p "tool") && truthyO (jsGetF p "args")) = false →
        jsStartsWith reply geminiErrHead = false →
        dispatchReply st reply = pushTurn st (modelTurn reply))
    ∧ (∀ p : JVal, parseJson (stripFences reply) = some p → isNullV p = false →
        (truthyO (jsGetF p "tool") && truthyO (jsGetF p "args")) = false →
        jsStartsWith reply geminiErrHead = true →
        dispatchReply st reply = addLog st LogEvent.geminiEchoLog) := by
  refine ⟨fun h => ?_, fun h => ?_, fun p hp hn hta hg => ?_, fun p hp hn hta hg => ?_⟩
  · simp only [dispatchReply, h]
  · simp only [dispatchReply, h]
    rfl
  · simp only [dispatchReply, hp, hn, Bool.false_eq_true, if_false, hta, plainReplyStep, hg]
  · simp only [dispatchReply, hp, hn, Bool.false_eq_true, if_false, hta, plainReplyStep, hg,
      if_true]

/-- Witness for C1 (amended): the reply is valid JSON but lacks `tool`
and `args`; exactly one model turn with the original reply is appended. -/
theorem reply_without_tool_call_witness :
    dispatchReply (initSt exWorld) "\x7b\"x\":1\x7d" =
      pushTurn (initSt exWorld) (modelTurn "\x7b\"x\":1\x7d") :=
  (reply_without_tool_call (initSt exWorld) "\x7b\"x\":1\x7d").2.2.1
    (JVal.jobj [("x", JVal.jnum 1)]) rfl rfl rfl rfl

/-- Counterexample to C1 as frozen: the reply `hello` fails to parse as
JSON, and the dispatch loop appends NO model turn at all — conversation
and call trace are unchanged; only `Error parsing reply` is logged. -/
theorem reply_without_tool_call_counterexample :
    (dispatchReply (initSt exWorld) "hello").conv = (initSt exWorld).conv
    ∧ (dispatchReply (initSt exWorld) "hello").calls = []
    ∧ (dispatchReply (initSt exWorld) "hello").logs = [LogEvent.parseErrorLog] :=
  ⟨rfl, rfl, rfl⟩

/-- C2 (amended): when the model call fails, the error is logged and no
model turn is appended (only the user turn entered the conversation), but
the error is rethrown at line 127 and `handleInput` has no handler for it,
so the `await` in the prompt loop rejects and `promptLoop()` is never
called again: the pass ends `crashed` instead of returning to await the
next input. -/
theorem api_error_aborts_loop (st : St) (input e : String)
    (hexit : isExitCmd input = false) :
    promptStep st input (Except.error e) =
      StepOut.crashed (St.mk (st.conv ++ [userTurn input]) st.world
        (st.logs ++ [LogEvent.apiErrorLog e]) st.calls st.events) := by
  simp only [promptStep, hexit, Bool.false_eq_true, if_false, handleInput, chatWithGemini,
    pushTurn, userTurn]

/-- Witness for C2 (amended). -/
theorem api_error_aborts_loop_witness :
    promptStep (initSt exWorldA) "hi there" (Except.error "socket hang up") =
      StepOut.crashed (St.mk (initialConv ++ [userTurn "hi there"]) exWorldA
        [LogEvent.apiErrorLog "socket hang up"] [] []) :=
  api_error_aborts_loop (initSt exWorldA) "hi there" "socket hang up" rfl

/-- Counterexample to C2 as frozen: on input `hi` with a failing model
call, the loop pass does not continue to accept the next line — it ends
`crashed`, with only the user turn recorded and the error logged. -/
theorem api_error_aborts_loop_counterexample :
    promptStep (initSt exWorld) "hi" (Except.error "boom") =
      StepOut.crashed (St.mk (initialConv ++ [userTurn "hi"]) exWorld
        [LogEvent.apiErrorLog "boom"] [] []) := rfl

/-- C5 (amended): the stripping step removes the FIRST occurrence of
```json anywhere in the reply, then the first occurrence of ``` anywhere
in the result — not specifically a leading and a trailing marker.  For a
reply that is exactly one fenced block — ```json, then a backtick-free
body, then ``` — it strips exactly those two markers and alters nothing
else. -/
theorem stripFences_fenced_block (body : String) (h : btickC ∉ body.toList) :
    stripFences ("```json" ++ body ++ "```") = body := by
  unfold stripFences
  have hd : ("```json" ++ body ++ "```").toList
      = "```json".toList ++ (body.toList ++ "```".toList) := by
    show ("```json" ++ body ++ "```").data = _
    simp [String.data_append, List.append_assoc]
  rw [hd, removeFirstOcc_append_self _ _ (by decide)]
  have he : ("```".toList : List Char) = btickC :: "``".toList := by decide
  rw [he, removeFirstOcc_append_of_head_notMem btickC ("``".toList) body.toList h]
  exact listToStr_toList body

/-- Witness for C5 (amended): a typical fenced JSON reply; stripping
yields exactly the body. -/
theorem stripFences_fenced_block_witness :
    stripFences ("```json" ++ "\n\x7b\"a\":1\x7d\n" ++ "```") = "\n\x7b\"a\":1\x7d\n" :=
  stripFences_fenced_block "\n\x7b\"a\":1\x7d\n" (by decide)

/-- Counterexample to C5 as frozen: the reply `a```b` has no leading
```json marker and does not end with ```, so per the claim the stripping
step should leave it untouched — but the first ``` ANYWHERE is removed,
giving `ab`. -/
theorem stripFences_counterexample :
    stripFences "a```b" = "ab"
    ∧ stripFences "a```b" ≠ "a```b"
    ∧ jsStartsWith "a```b" "```json" = false
    ∧ ("```".toList.isSuffixOf "a```b".toList) = false :=
  ⟨rfl, by decide, rfl, by decide⟩

end CLIAgent
